import Mathlib

/-!
Verification of the SAFENET evidence-store tooling (Iperico/Tools).

This file gives a shallow embedding, in Lean 4, of the core logic of the
repository:

* `android_logs_to_safenet_auto.py` — the Evidence Store Builder
  (category classification, device-identity resolution, run-folder parsing,
  the per-run copy loop, counters, and the acquisition metadata side-car);
* `m01_android_adb_04_validate_coherence.py` — the Coherence Validator
  (the five per-record checks, including the `title_in_file` content scan);
* `validation_android.py` — the Run Disambiguator
  (`find_run_base_by_runid_and_serial`).

Modelling conventions:

* Filesystem paths are lists of components (`Path`), assumed normalized
  (no `..`, no symlinks), so `Path.resolve().relative_to(root)` succeeding
  is modelled as `root` being a component-wise list prefix of the path.
* A filesystem is a partial map from paths to file data; `shutil.copy2`
  becomes a point update copying the stored value, so "byte-identical" is
  equality of stored values.
* File contents are Unicode strings; the on-disk byte size of a text file
  is its UTF-8 byte size (`utf8Len`), matching the Python code's
  `stat().st_size` / `len(line.encode("utf-8"))` accounting for
  well-formed UTF-8 input with LF newlines.
* Python's `s in t` substring test is `strContains t s`; `t.startswith(s)`
  is `strStarts t s`; `str.lower`, `str.strip`, `str.split("_")` are
  `lowerStr`, `trimStr`, `splitUnderscore` (character-level definitions,
  so that concrete runs reduce inside the kernel).
* Python dict iteration order is insertion order, so the `CATEGORY_PREFIXES`
  and `DEVICE_MAP` dicts become ordered association lists traversed with
  `List.find?`.
-/

namespace SafenetTools

/-- A filesystem path, as a normalized list of components. -/
abbrev Path := List String

/-- Python `str.lower`, character by character. -/
def lowerStr (s : String) : String := String.mk (s.toList.map Char.toLower)

/-- Python `s.startswith(pre)`. -/
def strStarts (s pre : String) : Bool := pre.toList.isPrefixOf s.toList

/-- Python substring test: `needle in hay` (true for the empty needle,
as in Python). -/
def strContains (hay needle : String) : Bool :=
  (List.range (hay.toList.length + 1)).any fun i =>
    needle.toList.isPrefixOf (hay.toList.drop i)

/-- Helper for `splitOnSep`: split a character list at every separator,
keeping empty fields, Python `str.split(sep)` style. -/
def splitSepChars (sep : Char) : List Char → List (List Char)
  | [] => [[]]
  | c :: rest =>
    let r := splitSepChars sep rest
    if c = sep then [] :: r
    else
      match r with
      | [] => [[c]]
      | h :: t => (c :: h) :: t

/-- Python `s.split("_")` (single-character separator, empty fields kept,
`"".split("_") = [""]`). -/
def splitUnderscore (s : String) : List String :=
  (splitSepChars '_' s.toList).map String.mk

/-- Python `str.strip()`: drop leading and trailing whitespace. -/
def trimStr (s : String) : String :=
  String.mk (((s.toList.dropWhile Char.isWhitespace).reverse.dropWhile
    Char.isWhitespace).reverse)

/-- UTF-8 byte length of one character. -/
def charUtf8Len (c : Char) : Nat :=
  if c.toNat ≤ 0x7F then 1
  else if c.toNat ≤ 0x7FF then 2
  else if c.toNat ≤ 0xFFFF then 3
  else 4

/-- UTF-8 byte length of a string: the model of both `stat().st_size` for a
text file and Python's `len(line.encode("utf-8"))`. -/
def utf8Len (s : String) : Nat := (s.toList.map charUtf8Len).sum

/-- The ordered prefix → category rule table of
`android_logs_to_safenet_auto.py` (`CATEGORY_PREFIXES`, a Python dict whose
iteration order is its declaration order). -/
def CATEGORY_PREFIXES : List (String × String) := [
  ("device_info_", "META"),
  ("getprop_", "META"),
  ("report_summary_", "META"),
  ("logcat_main_", "CORE_SYSTEM"),
  ("logcat_events_", "CORE_SYSTEM"),
  ("logcat_radio_", "CORE_SYSTEM"),
  ("logcat_crash_", "CORE_SYSTEM"),
  ("dmesg_", "CORE_SYSTEM"),
  ("dmesg_su_", "CORE_SYSTEM"),
  ("dumpsys_activity_", "CORE_SYSTEM"),
  ("dumpsys_power_", "CORE_SYSTEM"),
  ("settings_system_", "CORE_SYSTEM"),
  ("settings_global_", "CORE_SYSTEM"),
  ("settings_secure_", "CORE_SYSTEM"),
  ("df_", "CORE_SYSTEM"),
  ("mounts_", "CORE_SYSTEM"),
  ("netstat_", "CONNECTIVITY"),
  ("ip_addr_", "CONNECTIVITY"),
  ("ip_route_", "CONNECTIVITY"),
  ("dumpsys_connectivity_", "CONNECTIVITY"),
  ("dumpsys_wifi_", "CONNECTIVITY"),
  ("dumpsys_battery_", "CONNECTIVITY"),
  ("dumpsys_package_", "APPS_PACKAGES"),
  ("packages_all_", "APPS_PACKAGES"),
  ("packages_third_party_", "APPS_PACKAGES"),
  ("ps_full_", "APPS_PACKAGES")
]

/-- The five fixed run subdirectories (`RUN_SUBDIRS`). -/
def RUN_SUBDIRS : List String :=
  ["META", "CORE_SYSTEM", "CONNECTIVITY", "APPS_PACKAGES", "RAW_ALL"]

/-- The four classified category names (every `CATEGORY_PREFIXES` value). -/
def CLASSIFIED_CATS : List String :=
  ["META", "CORE_SYSTEM", "CONNECTIVITY", "APPS_PACKAGES"]

/-- `classify_category`: lowercase the file name and return the category of
the first prefix, in declared table order, that it starts with; `""` when
none matches. -/
def classify_category (filename : String) : String :=
  match CATEGORY_PREFIXES.find? (fun pc => strStarts (lowerStr filename) pc.1) with
  | some pc => pc.2
  | none => ""

/-- The operator-curated explicit override map (`DEVICE_MAP`); empty in the
shipped source (its entries are commented out). -/
def DEVICE_MAP : List (String × String) := []

/-- The S24 hardware-family heuristic of `map_device_logical`:
`"s24" in model or "sm-s92" in bms_lower`, with `model` the lowered second
`_`-separated field. -/
def s24Heur (bms : String) : Bool :=
  strContains (lowerStr ((splitUnderscore bms).getD 1 "")) "s24" ||
    strContains (lowerStr bms) "sm-s92"

/-- The S20 hardware-family heuristic of `map_device_logical`:
`"s20" in model or "sm-g98" in bms_lower`. -/
def s20Heur (bms : String) : Bool :=
  strContains (lowerStr ((splitUnderscore bms).getD 1 "")) "s20" ||
    strContains (lowerStr bms) "sm-g98"

/-- The lowered first `_`-separated field of the identity string
(`brand = parts[0].lower()`). -/
def brandOf (bms : String) : String :=
  lowerStr ((splitUnderscore bms).headD "")

/-- `map_device_logical`: resolve an identity string to a logical device
name through the four-tier priority chain — explicit prefix override,
S24/S20 heuristics, generic Samsung fallback, then the raw string. The
`DEVICE_MAP` global is taken as a parameter so the tier precedence can be
stated for any override table. -/
def map_device_logical (deviceMap : List (String × String)) (bms : String) : String :=
  match deviceMap.find? (fun pl => strStarts bms pl.1) with
  | some pl => pl.2
  | none =>
    if s24Heur bms then "Samsung_S24"
    else if s20Heur bms then "Samsung_S20"
    else if brandOf bms = "samsung" then
      (if 1 < (splitUnderscore bms).length then
        "Samsung_" ++ (splitUnderscore bms).getD 1 ""
      else "Samsung_Unknown")
    else bms

/-- The 15-character run-id shape `20\d{6}_\d{6}` (used anchored and whole
by `re.match(r"^(20\d{2})(\d{2})(\d{2})_(\d{2})(\d{2})(\d{2})$", run_id)`). -/
def runIdPattern (cs : List Char) : Bool :=
  decide (cs.length = 15) && cs.getD 0 ' ' == '2' && cs.getD 1 ' ' == '0'
  && ((List.range 6).all fun i => (cs.getD (2 + i) ' ').isDigit)
  && cs.getD 8 ' ' == '_'
  && ((List.range 6).all fun i => (cs.getD (9 + i) ' ').isDigit)

/-- `parse_run_folder_name`: split `<bms>_<YYYYMMDD_HHMMSS>` at the trailing
anchored timestamp (`re.match(r"^(.*)_(20\d{6}_\d{6})$", folder_name)`, whose
greedy group takes the last possible match) or fall back to
`(folder_name, "unknown_run")`. -/
def parse_run_folder_name (folder_name : String) : String × String :=
  let cs := folder_name.toList
  if 16 ≤ cs.length ∧ cs.getD (cs.length - 16) ' ' = '_' ∧
      runIdPattern (cs.drop (cs.length - 15)) = true then
    (String.mk (cs.take (cs.length - 16)), String.mk (cs.drop (cs.length - 15)))
  else
    (folder_name, "unknown_run")

/-! ## Evidence Store Builder (`process_run_folder`)

The non-dry-run success path of `process_run_folder` is embedded three
ways, all sharing the same path arithmetic:

* `processRunFs` — effect on the filesystem (a partial map);
* `buildTrace`  — the ordered list of filesystem operations performed;
* `processRunFolderE` — the same loop with a fallible copy primitive:
  `copy_file` has no exception handler, so a failed `shutil.copy2`
  propagates out of `process_run_folder` (modelled with `Except`).
-/

/-- The `acquisition_meta.json` document assembled by `process_run_folder`
(without the optional `adb_info` block, i.e. the `--adb-info`-off path that
the cited code lines describe). The `category_counts` dict is kept as its
serialized key/value list in insertion order. -/
structure MetaDocType where
  device_logical : String
  brand_model_serial : String
  run_id : String
  script_name : String
  script_version : String
  source_run_dir : Path
  target_run_base : Path
  total_files : Nat
  category_counts : List (String × Nat)
  uncategorized_files : List String
deriving DecidableEq

/-- A stored file: raw copied bytes, or the rendered metadata side-car
(`json.dump` of the meta dict; kept symbolic since only equality of
documents matters). -/
inductive FileData
  | bytes (content : String)
  | jsonMeta (doc : MetaDocType)
deriving DecidableEq

/-- Builder invocation context for one run folder: the `--dataset-root`,
the run folder path, and the `--script-name`/`--script-version` pair. -/
structure BuildCfg where
  datasetRoot : Path
  runDirPath : Path
  scriptName : String
  scriptVersion : String
deriving DecidableEq

/-- `run_dir.name`: the last path component of the run folder. -/
def runDirName (cfg : BuildCfg) : String := cfg.runDirPath.getLast?.getD ""

/-- `brand_model_serial` as parsed from the run folder name. -/
def bmsOf (cfg : BuildCfg) : String := (parse_run_folder_name (runDirName cfg)).1

/-- `run_id` as parsed from the run folder name. -/
def runIdOf (cfg : BuildCfg) : String := (parse_run_folder_name (runDirName cfg)).2

/-- `script_tag = f"{script_name}_{script_version}"`. -/
def scriptTag (cfg : BuildCfg) : String := cfg.scriptName ++ "_" ++ cfg.scriptVersion

/-- `run_base = dataset_root / device_logical / script_tag / run_id`. -/
def runBase (cfg : BuildCfg) : Path :=
  cfg.datasetRoot ++ [map_device_logical DEVICE_MAP (bmsOf cfg), scriptTag cfg, runIdOf cfg]

/-- Source path of one regular file directly inside the run folder. -/
def srcPath (cfg : BuildCfg) (n : String) : Path := cfg.runDirPath ++ [n]

/-- Unclassified-mirror destination: `run_base / "RAW_ALL" / name`. -/
def rawDest (cfg : BuildCfg) (n : String) : Path := runBase cfg ++ ["RAW_ALL", n]

/-- Category destination: `run_base / cat / name` (meaningful when
`classify_category n ≠ ""`). -/
def catDest (cfg : BuildCfg) (n : String) : Path :=
  runBase cfg ++ [classify_category n, n]

/-- `meta_path = run_base / "META" / "acquisition_meta.json"`. -/
def metaPath (cfg : BuildCfg) : Path := runBase cfg ++ ["META", "acquisition_meta.json"]

/-- The counters `process_run_folder` accumulates over the copy loop:
`total_files`, the `category_counts` dict (as a function on its keys) and
the `uncategorized_files` list. -/
structure BuildState where
  total_files : Nat
  category_counts : String → Nat
  uncategorized_files : List String

/-- `category_counts[k] += 1` on the dict viewed as a function. -/
def bump (c : String → Nat) (k : String) : String → Nat :=
  fun q => if q = k then c k + 1 else c q

/-- Counter state before the copy loop:
`total_files = 0`, `category_counts = {name: 0 for name in RUN_SUBDIRS}`,
`uncategorized_files = []`. -/
def initState : BuildState := ⟨0, fun _ => 0, []⟩

/-- One iteration of the copy loop, counter part: `total_files += 1`,
`category_counts["RAW_ALL"] += 1`, then either `category_counts[cat] += 1`
or `uncategorized_files.append(name)`. -/
def stepFile (st : BuildState) (name : String) : BuildState :=
  let cat := classify_category name
  if cat ≠ "" then
    { total_files := st.total_files + 1,
      category_counts := bump (bump st.category_counts "RAW_ALL") cat,
      uncategorized_files := st.uncategorized_files }
  else
    { total_files := st.total_files + 1,
      category_counts := bump st.category_counts "RAW_ALL",
      uncategorized_files := st.uncategorized_files ++ [name] }

/-- Counter state after processing the (sorted) regular-file names of the
run folder. -/
def runCounts (names : List String) : BuildState :=
  names.foldl stepFile initState

/-- The metadata snapshot written (its `category_counts` dict is serialized
in `RUN_SUBDIRS` key order, the dict's insertion order). -/
def metaDocOf (cfg : BuildCfg) (names : List String) : MetaDocType :=
  let st := runCounts names
  { device_logical := map_device_logical DEVICE_MAP (bmsOf cfg),
    brand_model_serial := bmsOf cfg,
    run_id := runIdOf cfg,
    script_name := cfg.scriptName,
    script_version := cfg.scriptVersion,
    source_run_dir := cfg.runDirPath,
    target_run_base := runBase cfg,
    total_files := st.total_files,
    category_counts := RUN_SUBDIRS.map (fun k => (k, st.category_counts k)),
    uncategorized_files := st.uncategorized_files }

/-- A filesystem: partial map from paths to file data. -/
def FS := Path → Option FileData

/-- Point update of the filesystem (overwrites, as `shutil.copy2` and
`open(..., "w")` do). -/
def fsWrite (fs : FS) (p : Path) (v : Option FileData) : FS :=
  fun q => if q = p then v else fs q

/-- `copy_file` on the filesystem map (non-dry-run, successful copy). -/
def copyFileFs (fs : FS) (src dst : Path) : FS := fsWrite fs dst (fs src)

/-- Filesystem effect of one iteration of the copy loop: copy to the
`RAW_ALL` mirror, then additionally to the category directory when
classified. -/
def stepFs (cfg : BuildCfg) (n : String) (fs : FS) : FS :=
  let fs1 := copyFileFs fs (srcPath cfg n) (rawDest cfg n)
  if classify_category n ≠ "" then
    copyFileFs fs1 (srcPath cfg n) (catDest cfg n)
  else fs1

/-- The copy loop of `process_run_folder` on the filesystem. -/
def processFilesFs (cfg : BuildCfg) : List String → FS → FS
  | [], fs => fs
  | n :: ns, fs => processFilesFs cfg ns (stepFs cfg n fs)

/-- Full non-dry-run `process_run_folder` on the filesystem: copy every
file, then write the metadata side-car. -/
def processRunFs (cfg : BuildCfg) (names : List String) (fs : FS) : FS :=
  fsWrite (processFilesFs cfg names fs) (metaPath cfg)
    (some (.jsonMeta (metaDocOf cfg names)))

/-- One filesystem operation, for the ordering (trace) view of the
builder. -/
inductive FsOp
  | mkdirp (p : Path)
  | copyOp (src dst : Path)
  | writeJson (p : Path)
deriving DecidableEq

/-- Operations performed for one source file: `copy_file` makes the parent
directory and copies to `RAW_ALL`, then, when classified, likewise into the
category directory. -/
def fileOps (cfg : BuildCfg) (n : String) : List FsOp :=
  [.mkdirp (runBase cfg ++ ["RAW_ALL"]), .copyOp (srcPath cfg n) (rawDest cfg n)] ++
    (if classify_category n ≠ "" then
      [.mkdirp (runBase cfg ++ [classify_category n]),
       .copyOp (srcPath cfg n) (catDest cfg n)]
    else [])

/-- The initial `mkdir(parents=True, exist_ok=True)` of the five run
subdirectories. -/
def dirsTrace (cfg : BuildCfg) : List FsOp :=
  RUN_SUBDIRS.map fun sub => .mkdirp (runBase cfg ++ [sub])

/-- Trace of the whole copy loop. -/
def filesTrace (cfg : BuildCfg) (names : List String) : List FsOp :=
  (names.map (fileOps cfg)).flatten

/-- Trace of a non-dry-run `process_run_folder` invocation: subdirectory
creation, the copy loop, and last the metadata write (`write_json` makes
the parent directory and writes the document). -/
def buildTrace (cfg : BuildCfg) (names : List String) : List FsOp :=
  dirsTrace cfg ++ filesTrace cfg names ++
    [.mkdirp (runBase cfg ++ ["META"]), .writeJson (metaPath cfg)]

/-- Whether an operation is the metadata write. -/
def FsOp.isWriteJson : FsOp → Bool
  | .writeJson _ => true
  | _ => false

/-- A copy primitive that may fail: `ora src dst = false` models
`shutil.copy2(src, dst)` raising an `OSError`. -/
def CopyOracle := Path → Path → Bool

/-- The copy loop with the fallible primitive. `copy_file` contains no
`try`/`except`, so the first failing copy propagates: the remaining files
are not processed. -/
def processFilesE (ora : CopyOracle) (cfg : BuildCfg) :
    List String → Except (Path × Path) Unit
  | [] => .ok ()
  | n :: ns =>
    if ora (srcPath cfg n) (rawDest cfg n) then
      (if classify_category n ≠ "" then
        (if ora (srcPath cfg n) (catDest cfg n) then processFilesE ora cfg ns
         else .error (srcPath cfg n, catDest cfg n))
      else processFilesE ora cfg ns)
    else .error (srcPath cfg n, rawDest cfg n)

/-- Fallible `process_run_folder`: the metadata document is produced only
when every copy succeeded; a copy failure aborts the run with the failing
(source, destination) pair. -/
def processRunFolderE (ora : CopyOracle) (cfg : BuildCfg) (names : List String) :
    Except (Path × Path) MetaDocType :=
  match processFilesE ora cfg names with
  | .error e => .error e
  | .ok _ => .ok (metaDocOf cfg names)

/-! ## Coherence Validator (`m01_android_adb_04_validate_coherence.py`)

Per-record evaluation of the five checks of `main`. A filesystem is a
partial map from paths to text contents (`VFS`); record fields come from
the `EVENTI_ANDROID` rows. An `Option` field value `none` means the check
was never attempted for that record. -/

/-- Validator-side filesystem: paths to text contents; `none` = the file
does not exist. The validator never writes. -/
def VFS := Path → Option String

/-- `parse_run_id_from_path`: `path.parent.parent.name`, i.e. the third
component from the end; degenerates to `""` for paths too short (pathlib's
`Path(".").name`). The Python `Optional` result is never `None`. -/
def parse_run_id_from_path (p : Path) : String :=
  if 3 ≤ p.length then p.getD (p.length - 3) "" else ""

/-- `parse_device_logical_from_path`: the component of the path directly
under `dataset_root`, provided the relative path has at least two
components; `none` when the path is not under the root or is too
shallow. -/
def parse_device_logical_from_path (droot p : Path) : Option String :=
  if droot.isPrefixOf p then
    (if 2 ≤ p.length - droot.length then some ((p.drop droot.length).getD 0 "")
     else none)
  else none

/-- Shape `20\d{2}-\d{2}-\d{2}` at positions 0–9. -/
def dateShapeOk (cs : List Char) : Bool :=
  cs.getD 0 ' ' == '2' && cs.getD 1 ' ' == '0' &&
  (cs.getD 2 ' ').isDigit && (cs.getD 3 ' ').isDigit &&
  cs.getD 4 ' ' == '-' && (cs.getD 5 ' ').isDigit && (cs.getD 6 ' ').isDigit &&
  cs.getD 7 ' ' == '-' && (cs.getD 8 ' ').isDigit && (cs.getD 9 ' ').isDigit

/-- Shape `\d{2}:\d{2}:\d{2}` at positions 0–7. -/
def timeShapeOk (cs : List Char) : Bool :=
  (cs.getD 0 ' ').isDigit && (cs.getD 1 ' ').isDigit && cs.getD 2 ' ' == ':' &&
  (cs.getD 3 ' ').isDigit && (cs.getD 4 ' ').isDigit && cs.getD 5 ' ' == ':' &&
  (cs.getD 6 ' ').isDigit && (cs.getD 7 ' ').isDigit

/-- `date_from_timestamp_utc`: prefix-anchored
`^(20\d{2}-\d{2}-\d{2})\s+\d{2}:\d{2}:\d{2}` returning the date part. -/
def date_from_timestamp_utc (ts : String) : Option String :=
  let cs := ts.toList
  let rest := cs.drop 10
  let ws := rest.takeWhile Char.isWhitespace
  if dateShapeOk cs && decide (1 ≤ ws.length) && timeShapeOk (rest.drop ws.length)
  then some (String.mk (cs.take 10))
  else none

/-- `f"{year}-{mm}-{dd}"` from a validated 15-character run id. -/
def dateFromRunId (rid : String) : String :=
  let cs := rid.toList
  String.mk (cs.take 4) ++ "-" ++ String.mk ((cs.drop 4).take 2) ++ "-" ++
    String.mk ((cs.drop 6).take 2)

/-- Text-mode line iteration (`for line in f`): split after every newline,
each line keeping its trailing `'\n'`; the accumulator holds the current
line reversed. -/
def splitLinesAux : List Char → List Char → List (List Char)
  | [], acc => if acc.isEmpty then [] else [acc.reverse]
  | c :: rest, acc =>
    if c = '\n' then (acc.reverse ++ ['\n']) :: splitLinesAux rest []
    else splitLinesAux rest (c :: acc)

/-- The lines of a file content, with line terminators kept. -/
def linesKeep (s : String) : List String :=
  (splitLinesAux s.toList []).map String.mk

/-- The large-file loop of `title_in_file`: per line, count its UTF-8
bytes, succeed when the title occurs inside the line, and stop after the
cumulative count reaches `max_bytes`. -/
def scanLines (title : String) (maxBytes : Nat) : List String → Nat → Bool
  | [], _ => false
  | l :: ls, acc =>
    let acc2 := acc + utf8Len l
    if strContains l title then true
    else if maxBytes ≤ acc2 then false
    else scanLines title maxBytes ls acc2

/-- The `max_bytes` default of `title_in_file`. -/
def TITLE_MAX_BYTES : Nat := 5000000

/-- `title_in_file`: whole-content substring check for files within the
byte budget, bounded per-line scan above it. (The `except OSError: return
False` branch is outside the model: the validator only calls it on files
that exist.) -/
def title_in_file (title content : String) (maxBytes : Nat) : Bool :=
  if utf8Len content ≤ maxBytes then strContains content title
  else scanLines title maxBytes (linesKeep content) 0

/-- One `EVENTI_ANDROID` row as loaded into `AndroidEventRecord`;
`source_file := none` models the NULL/empty value that the
`if not rec.source_file` guard rejects. -/
structure AndroidEventRecord where
  android_event_id : Int
  timestamp_utc : String
  device_id : Int
  title : String
  source_file : Option Path
deriving DecidableEq

/-- Outcome of check 3 (identity consistency): unresolvable path, missing
`DEVICE_MASTER` label (a warning, not an error), mismatching label, or
match. -/
inductive C3Res
  | pathFail
  | warnNoLabel
  | mismatch
  | okLabel
deriving DecidableEq

/-- The per-record evaluation result: one slot per check (`none` = the
check was never attempted for that record) and the final `record_ok`
flag. -/
structure RecordChecks where
  existsCheck : Option Bool
  underRoot : Option Bool
  identity : Option C3Res
  temporal : Option Bool
  contentCheck : Option Bool
  record_ok : Bool
deriving DecidableEq

/-- `DEVICE_MASTER` lookup (`device_labels.get(rec.device_id)`). -/
def lookupLabel (labels : List (Int × String)) (d : Int) : Option String :=
  (labels.find? (fun kv => kv.1 == d)).map Prod.snd

/-- The body of the per-record loop of `main`: empty `source_file` fails
immediately with no check attempted; a missing file fails check 1 and the
`else` branch holding checks 2–5 is not entered; when the file exists,
checks 2, 3 and 4 are each evaluated unconditionally and check 5 exactly
when `--skip-title-check` is off (note check 5 requires a truthy `title`
besides `title_in_file`). -/
def checkRecord (vfs : VFS) (droot : Path) (labels : List (Int × String))
    (skipTitle : Bool) (rec : AndroidEventRecord) : RecordChecks :=
  match rec.source_file with
  | none => ⟨none, none, none, none, none, false⟩
  | some p =>
    match vfs p with
    | none => ⟨some false, none, none, none, none, false⟩
    | some content =>
      let c2 := droot.isPrefixOf p
      let c3 :=
        match parse_device_logical_from_path droot p with
        | none => C3Res.pathFail
        | some dl =>
          match lookupLabel labels rec.device_id with
          | none => C3Res.warnNoLabel
          | some lbl => if dl = lbl then C3Res.okLabel else C3Res.mismatch
      let rid := parse_run_id_from_path p
      let c4 :=
        if runIdPattern rid.toList then
          match date_from_timestamp_utc rec.timestamp_utc with
          | none => false
          | some d => dateFromRunId rid == d
        else false
      let c5 : Option Bool :=
        if skipTitle then none
        else some (rec.title != "" && title_in_file rec.title content TITLE_MAX_BYTES)
      let c3ok :=
        match c3 with
        | C3Res.pathFail => false
        | C3Res.mismatch => false
        | _ => true
      let c5ok := match c5 with | some b => b | none => true
      ⟨some true, some c2, some c3, some c4, c5, c2 && c3ok && c4 && c5ok⟩

/-- The record loop: every selected row is evaluated, with no early exit —
a failing record never stops evaluation of the remaining records. -/
def validateRecords (vfs : VFS) (droot : Path) (labels : List (Int × String))
    (skipTitle : Bool) (recs : List AndroidEventRecord) : List RecordChecks :=
  recs.map (checkRecord vfs droot labels skipTitle)

/-! ## Run Disambiguator (`validation_android.find_run_base_by_runid_and_serial`) -/

/-- The `META/acquisition_meta.json` of one candidate as the disambiguator
sees it: absent, unreadable/unparseable, or parsed with the raw (pre-strip)
`adb_info["ro.serialno"]` and `brand_model_serial` string values. -/
inductive MetaState
  | absent
  | unreadable
  | parsed (ro_serialno : String) (brand_model_serial : String)
deriving DecidableEq

/-- One entry of `dataset_root.iterdir()`: its name, whether it is a
directory, whether `<name>/<script_tag>/<run_id>` is a directory, and its
metadata state. -/
structure DeviceEntry where
  name : String
  isDir : Bool
  hasRunDir : Bool
  meta : MetaState
deriving DecidableEq

/-- The diagnostics `find_run_base_by_runid_and_serial` can append (the
Python warning strings, kept structured). -/
inductive FindDiag
  | noTarget
  | noneMatch (candidates : Nat)
  | multiMatch (matched : Nat)
deriving DecidableEq

/-- Serial matching against one candidate's metadata:
`serial and ro_serial and serial in ro_serial`, else
`serial and meta_bms and serial in meta_bms` (values `.strip()`-ped);
candidates with absent or unreadable metadata never match. -/
def entryMatchesSerial (serial : String) (e : DeviceEntry) : Bool :=
  match e.meta with
  | .parsed ro bms =>
    (serial != "" && trimStr ro != "" && strContains (trimStr ro) serial) ||
      (serial != "" && trimStr bms != "" && strContains (trimStr bms) serial)
  | _ => false

/-- The candidate run directories: device entries that are directories and
contain `<script_tag>/<run_id>`. -/
def candidateNames (store : List DeviceEntry) : List String :=
  ((store.filter fun e => e.isDir && e.hasRunDir).map DeviceEntry.name)

/-- The candidates kept by the serial-match pass over the metadata. -/
def matchedNames (store : List DeviceEntry) (serial : String) : List String :=
  (((store.filter fun e => e.isDir && e.hasRunDir).filter
    (entryMatchesSerial serial)).map DeviceEntry.name)

/-- `find_run_base_by_runid_and_serial` (result as the device-directory
name, which determines `run_base`): a unique candidate is returned as-is;
with several, only serial-matched ones are kept and a unique survivor is
returned; otherwise `none` plus one diagnostic. -/
def find_run_base_by_runid_and_serial (store : List DeviceEntry)
    (serial : String) : Option String × List FindDiag :=
  match candidateNames store with
  | [] => (none, [.noTarget])
  | [c] => (some c, [])
  | _ =>
    match matchedNames store serial with
    | [m] => (some m, [])
    | [] => (none, [.noneMatch (candidateNames store).length])
    | _ => (none, [.multiMatch (matchedNames store serial).length])

/-! ## Auxiliary definitions used by the statements -/

/-- Value of a key in a serialized counts dict (0 when absent, which never
happens for the five fixed keys). -/
def lookupCount (l : List (String × Nat)) (k : String) : Nat :=
  ((l.find? fun kv => kv.1 == k).map Prod.snd).getD 0

/-- The counter-reconciliation invariant of the builder state: the mirror
counter equals the total, and the four classified counters plus the
uncategorized list cover the total exactly once each. -/
def countsInv (st : BuildState) : Prop :=
  st.category_counts "RAW_ALL" = st.total_files ∧
  st.category_counts "META" + st.category_counts "CORE_SYSTEM" +
    st.category_counts "CONNECTIVITY" + st.category_counts "APPS_PACKAGES" +
    st.uncategorized_files.length = st.total_files

/-- The lines `scanLines` actually examines: the shortest prefix whose
cumulative UTF-8 size (starting from `acc`) reaches the byte budget. -/
def takeBudget (maxBytes : Nat) : List String → Nat → List String
  | [], _ => []
  | l :: ls, acc =>
    let acc2 := acc + utf8Len l
    if maxBytes ≤ acc2 then [l] else l :: takeBudget maxBytes ls acc2

/-- Whether the copy loop writes path `p` while processing file `n`. -/
def writesFor (cfg : BuildCfg) (n : String) (p : Path) : Prop :=
  p = rawDest cfg n ∨ (classify_category n ≠ "" ∧ p = catDest cfg n)

/-! ## Concrete fixtures for witnesses and counterexamples -/

/-- A concrete builder configuration: run folder
`logs/acme_modelX_SN123_20250601_120000`, dataset root `ds`. -/
def exCfg : BuildCfg :=
  ⟨["ds"], ["logs", "acme_modelX_SN123_20250601_120000"], "android_log_dump", "0.2"⟩

/-- Regular files of the example run: one CONNECTIVITY file, one META file,
one uncategorizable file. -/
def exNames : List String := ["dumpsys_battery_a.txt", "getprop_b.txt", "random.bin"]

/-- A concrete source filesystem carrying the three example files. -/
def exFs : FS := fun q =>
  if q = srcPath exCfg "dumpsys_battery_a.txt" then some (.bytes "AAA")
  else if q = srcPath exCfg "getprop_b.txt" then some (.bytes "BBB")
  else if q = srcPath exCfg "random.bin" then some (.bytes "CCC")
  else none

/-- A copy oracle that fails exactly on the mirror copy of the first
example file (one I/O error in the middle of the run). -/
def exOra : CopyOracle := fun _ d => !(d == rawDest exCfg "dumpsys_battery_a.txt")

/-- Validator fixtures: the dataset root. -/
def exDroot : Path := ["root"]

/-- A canonical evidence path for a CORE_SYSTEM file under the root. -/
def exPath : Path :=
  ["root", "Samsung_S20", "android_log_dump_0.2", "20250601_120000",
   "CORE_SYSTEM", "logcat_main_x.txt"]

/-- A database record consistent with `exPath` on every check. -/
def exRec : AndroidEventRecord := ⟨1, "2025-06-01 12:00:00", 201, "hello", some exPath⟩

/-- A validator filesystem where `exPath` exists and contains the record's
title. -/
def exVfs : VFS := fun q => if q = exPath then some "say hello world" else none

/-- The `DEVICE_MASTER` labels for the validator fixtures. -/
def exLabels : List (Int × String) := [(201, "Samsung_S20")]

/-- A two-candidate store for the disambiguator, with distinct recorded
serials. -/
def exStore2 : List DeviceEntry :=
  [⟨"devA", true, true, .parsed " SER1X " "samsung_SM-G981B_SER1X"⟩,
   ⟨"devB", true, true, .parsed "OTHER" "samsung_SM-G980F_OTHER"⟩]

/-! ## Helper lemmas -/

/-- Every value of the rule table is one of the four classified category
names. -/
theorem classify_range (s : String) :
    classify_category s = "" ∨ classify_category s ∈ CLASSIFIED_CATS := by
  unfold classify_category
  cases h : CATEGORY_PREFIXES.find? (fun pc => strStarts (lowerStr s) pc.1) with
  | none => exact Or.inl rfl
  | some pc =>
    refine Or.inr ?_
    have hmem : pc ∈ CATEGORY_PREFIXES := List.mem_of_find?_eq_some h
    have hall : ∀ q ∈ CATEGORY_PREFIXES, q.2 ∈ CLASSIFIED_CATS := by decide
    exact hall pc hmem

/-- `classify_category` never answers the mirror name. -/
theorem classify_ne_raw (s : String) : classify_category s ≠ "RAW_ALL" := by
  rcases classify_range s with h | h
  · rw [h]; decide
  · intro hc
    rw [hc] at h
    exact absurd h (by decide)

/-- The metadata file name matches no category prefix. -/
theorem classify_meta_json : classify_category "acquisition_meta.json" = "" := by
  decide

/-- `List.find?` returns the element at the first matching index. -/
theorem find?_first_of_matches {α : Type} (p : α → Bool) (d : α) :
    ∀ (l : List α) (i : Nat), i < l.length → p (l.getD i d) = true →
      (∀ j, j < i → p (l.getD j d) = false) →
      l.find? p = some (l.getD i d) := by
  intro l
  induction l with
  | nil => intro i hi _ _; exact absurd hi (by simp)
  | cons a as ih =>
    intro i hi hp hprev
    cases i with
    | zero =>
      rw [List.getD_cons_zero] at hp ⊢
      simp [List.find?_cons_of_pos, hp]
    | succ k =>
      have h0 : p a = false := by
        have := hprev 0 (Nat.succ_pos k)
        rwa [List.getD_cons_zero] at this
      rw [List.getD_cons_succ]
      rw [List.find?_cons_of_neg _ (by simp [h0])]
      refine ih k (by simpa using Nat.lt_of_succ_lt_succ hi) ?_ ?_
      · rwa [List.getD_cons_succ] at hp
      · intro j hj
        have := hprev (j + 1) (Nat.succ_lt_succ hj)
        rwa [List.getD_cons_succ] at this

/-- `stepFile` on an unclassified file: bump total and mirror counters and
append the name to the uncategorized list. -/
theorem stepFile_eq_of_none (st : BuildState) (n : String)
    (h : classify_category n = "") :
    stepFile st n =
      ⟨st.total_files + 1, bump st.category_counts "RAW_ALL",
        st.uncategorized_files ++ [n]⟩ := by
  unfold stepFile
  simp [h]

/-- `stepFile` on a classified file: bump total, mirror and category
counters. -/
theorem stepFile_eq_of_cat (st : BuildState) (n : String)
    (h : classify_category n ≠ "") :
    stepFile st n =
      ⟨st.total_files + 1,
        bump (bump st.category_counts "RAW_ALL") (classify_category n),
        st.uncategorized_files⟩ := by
  unfold stepFile
  simp [h]

/-- The uncategorized list only grows along the counter loop. -/
theorem uncat_mono : ∀ (names : List String) (st : BuildState),
    st.uncategorized_files ⊆ (names.foldl stepFile st).uncategorized_files := by
  intro names
  induction names with
  | nil => intro st; exact List.Subset.refl _
  | cons n ns ih =>
    intro st
    refine List.Subset.trans ?_ (ih (stepFile st n))
    by_cases h : classify_category n = ""
    · rw [stepFile_eq_of_none st n h]
      exact List.subset_append_left _ _
    · rw [stepFile_eq_of_cat st n h]
      exact List.Subset.refl _

/-- A file that classifies to no category ends up in the uncategorized
list. -/
theorem mem_uncat : ∀ (names : List String) (st : BuildState) (n : String),
    n ∈ names → classify_category n = "" →
    n ∈ (names.foldl stepFile st).uncategorized_files := by
  intro names
  induction names with
  | nil => intro st n h; exact absurd h (by simp)
  | cons a as ih =>
    intro st n hmem hcls
    rcases List.mem_cons.mp hmem with h | h
    · subst h
      refine uncat_mono as (stepFile st n) ?_
      rw [stepFile_eq_of_none st n hcls]
      simp
    · exact ih (stepFile st a) n h hcls

/-- `stepFile` preserves the counter-reconciliation invariant. -/
theorem countsInv_step (st : BuildState) (n : String) :
    countsInv st → countsInv (stepFile st n) := by
  intro hinv
  obtain ⟨h1, h2⟩ := hinv
  rcases classify_range n with h | h
  · rw [stepFile_eq_of_none st n h]
    unfold countsInv
    simp [bump]
    omega
  · have hne : classify_category n ≠ "" := by
      intro hc; rw [hc] at h; exact absurd h (by decide)
    rw [stepFile_eq_of_cat st n hne]
    simp only [CLASSIFIED_CATS, List.mem_cons, List.mem_nil_iff, or_false] at h
    rcases h with h | h | h | h
    all_goals
      rw [h]
      unfold countsInv
      simp [bump]
      omega

/-- The counter loop preserves the invariant from any starting state. -/
theorem countsInv_foldl : ∀ (names : List String) (st : BuildState),
    countsInv st → countsInv (names.foldl stepFile st) := by
  intro names
  induction names with
  | nil => intro st h; exact h
  | cons n ns ih => intro st h; exact ih (stepFile st n) (countsInv_step st n h)

/-- `getLast?` of a list ending in two explicit elements. -/
theorem getLast?_append_pair {α : Type} (X : List α) (a b : α) :
    (X ++ [a, b]).getLast? = some b := by
  have h : X ++ [a, b] = (X ++ [a]) ++ [b] := by simp
  rw [h, List.getLast?_concat]

/-- Updating one path leaves every other path unchanged. -/
theorem fsWrite_ne (fs : FS) (p : Path) (v : Option FileData) (q : Path)
    (h : q ≠ p) : fsWrite fs p v q = fs q := by
  simp [fsWrite, h]

/-- Reading the path just written gives the written value. -/
theorem fsWrite_self (fs : FS) (p : Path) (v : Option FileData) :
    fsWrite fs p v p = v := by
  simp [fsWrite]

/-- A copy leaves every path other than its destination unchanged. -/
theorem copyFileFs_ne (fs : FS) (src dst p : Path) (h : p ≠ dst) :
    copyFileFs fs src dst p = fs p :=
  fsWrite_ne fs dst (fs src) p h

/-- A copy stores the source value at the destination. -/
theorem copyFileFs_self (fs : FS) (src dst : Path) :
    copyFileFs fs src dst dst = fs src :=
  fsWrite_self fs dst (fs src)

/-- Appending two distinct component pairs to the same base gives distinct
paths exactly by their components. -/
theorem base_pair_inj (base : Path) (a b c d : String)
    (h : base ++ [a, b] = base ++ [c, d]) : a = c ∧ b = d := by
  have h2 : ([a, b] : Path) = [c, d] := List.append_cancel_left h
  simpa using h2

/-- Mirror destinations of distinct files are distinct. -/
theorem rawDest_inj (cfg : BuildCfg) (n m : String)
    (h : rawDest cfg n = rawDest cfg m) : n = m :=
  (base_pair_inj (runBase cfg) _ _ _ _ h).2

/-- A mirror destination is never a category destination. -/
theorem rawDest_ne_catDest (cfg : BuildCfg) (n m : String) :
    rawDest cfg n ≠ catDest cfg m := by
  intro h
  have h2 := (base_pair_inj (runBase cfg) _ _ _ _ h).1
  exact classify_ne_raw m h2.symm

/-- Category destinations of distinct files are distinct. -/
theorem catDest_inj (cfg : BuildCfg) (n m : String)
    (h : catDest cfg n = catDest cfg m) : n = m :=
  (base_pair_inj (runBase cfg) _ _ _ _ h).2

/-- A mirror destination is never the metadata path. -/
theorem rawDest_ne_metaPath (cfg : BuildCfg) (n : String) :
    rawDest cfg n ≠ metaPath cfg := by
  intro h
  have h2 := (base_pair_inj (runBase cfg) _ _ _ _ h).1
  exact absurd h2 (by decide)

/-- A category destination is never the metadata path. -/
theorem catDest_ne_metaPath (cfg : BuildCfg) (n : String) :
    catDest cfg n ≠ metaPath cfg := by
  intro h
  obtain ⟨h1, h2⟩ := base_pair_inj (runBase cfg) _ _ _ _ h
  rw [h2] at h1
  rw [classify_meta_json] at h1
  exact absurd h1 (by decide)

/-- Under separation of source and target trees, one copy-loop step leaves
every path it does not write unchanged. -/
theorem stepFs_ne (cfg : BuildCfg) (n : String) (fs : FS) (p : Path)
    (h : ¬ writesFor cfg n p) : stepFs cfg n fs p = fs p := by
  have hraw : p ≠ rawDest cfg n := fun hh => h (Or.inl hh)
  unfold stepFs
  by_cases hcl : classify_category n ≠ ""
  · have hpc : p ≠ catDest cfg n := fun hh => h (Or.inr ⟨hcl, hh⟩)
    rw [if_pos hcl]
    rw [copyFileFs_ne _ _ _ _ hpc, copyFileFs_ne _ _ _ _ hraw]
  · rw [if_neg hcl]
    exact copyFileFs_ne _ _ _ _ hraw

/-- Under source/target separation, one step never changes source paths. -/
theorem stepFs_src (cfg : BuildCfg) (n : String) (fs : FS) (m : String)
    (hs : ∀ (x : String) (y : List String),
      cfg.runDirPath ++ [x] ≠ runBase cfg ++ y) :
    stepFs cfg n fs (srcPath cfg m) = fs (srcPath cfg m) := by
  apply stepFs_ne
  intro hw
  rcases hw with h | ⟨_, h⟩
  · exact hs m ["RAW_ALL", n] h
  · exact hs m [classify_category n, n] h

/-- One step stores the source value at the file's mirror destination. -/
theorem stepFs_raw (cfg : BuildCfg) (n : String) (fs : FS) :
    stepFs cfg n fs (rawDest cfg n) = fs (srcPath cfg n) := by
  unfold stepFs
  by_cases hcl : classify_category n ≠ ""
  · rw [if_pos hcl]
    rw [copyFileFs_ne _ _ _ _ (rawDest_ne_catDest cfg n n)]
    exact copyFileFs_self fs _ _
  · rw [if_neg hcl]
    exact copyFileFs_self fs _ _

/-- One step stores the source value at the file's category destination. -/
theorem stepFs_cat (cfg : BuildCfg) (n : String) (fs : FS)
    (hs : ∀ (x : String) (y : List String),
      cfg.runDirPath ++ [x] ≠ runBase cfg ++ y)
    (hcl : classify_category n ≠ "") :
    stepFs cfg n fs (catDest cfg n) = fs (srcPath cfg n) := by
  unfold stepFs
  rw [if_pos hcl]
  rw [copyFileFs_self]
  exact copyFileFs_ne _ _ _ _ fun hh => hs n ["RAW_ALL", n] hh

/-- Paths no file of the run writes are untouched by the copy loop. -/
theorem processFilesFs_frame (cfg : BuildCfg) : ∀ (names : List String)
    (fs : FS) (p : Path), (∀ n ∈ names, ¬ writesFor cfg n p) →
    processFilesFs cfg names fs p = fs p := by
  intro names
  induction names with
  | nil => intro fs p _; rfl
  | cons n ns ih =>
    intro fs p h
    show processFilesFs cfg ns (stepFs cfg n fs) p = fs p
    rw [ih (stepFs cfg n fs) p fun m hm => h m (List.mem_cons_of_mem n hm)]
    exact stepFs_ne cfg n fs p (h n (List.mem_cons_self n ns))

/-- Under source/target separation, the copy loop never changes source
paths. -/
theorem processFilesFs_src (cfg : BuildCfg) (names : List String) (fs : FS)
    (m : String)
    (hs : ∀ (x : String) (y : List String),
      cfg.runDirPath ++ [x] ≠ runBase cfg ++ y) :
    processFilesFs cfg names fs (srcPath cfg m) = fs (srcPath cfg m) := by
  apply processFilesFs_frame
  intro n _ hw
  rcases hw with h | ⟨_, h⟩
  · exact hs m ["RAW_ALL", n] h
  · exact hs m [classify_category n, n] h

/-- After the copy loop, each processed file's mirror copy holds the
original source value. -/
theorem processFilesFs_raw (cfg : BuildCfg) : ∀ (names : List String)
    (fs : FS) (n : String),
    (∀ (x : String) (y : List String),
      cfg.runDirPath ++ [x] ≠ runBase cfg ++ y) →
    names.Nodup → n ∈ names →
    processFilesFs cfg names fs (rawDest cfg n) = fs (srcPath cfg n) := by
  intro names
  induction names with
  | nil => intro fs n _ _ h; exact absurd h (by simp)
  | cons a as ih =>
    intro fs n hs hnd hmem
    have hnd2 := List.nodup_cons.mp hnd
    rcases List.mem_cons.mp hmem with h | h
    · subst h
      show processFilesFs cfg as (stepFs cfg n fs) (rawDest cfg n) = fs (srcPath cfg n)
      rw [processFilesFs_frame cfg as _ _ ?_]
      · exact stepFs_raw cfg n fs
      · intro m hm hw
        rcases hw with hh | ⟨_, hh⟩
        · exact hnd2.1 (rawDest_inj cfg n m hh ▸ hm)
        · exact rawDest_ne_catDest cfg n m hh
    · show processFilesFs cfg as (stepFs cfg a fs) (rawDest cfg n) = fs (srcPath cfg n)
      rw [ih (stepFs cfg a fs) n hs hnd2.2 h]
      exact stepFs_src cfg a fs n hs

/-- After the copy loop, each classified file's category copy also holds
the original source value. -/
theorem processFilesFs_cat (cfg : BuildCfg) : ∀ (names : List String)
    (fs : FS) (n : String),
    (∀ (x : String) (y : List String),
      cfg.runDirPath ++ [x] ≠ runBase cfg ++ y) →
    names.Nodup → n ∈ names → classify_category n ≠ "" →
    processFilesFs cfg names fs (catDest cfg n) = fs (srcPath cfg n) := by
  intro names
  induction names with
  | nil => intro fs n _ _ h; exact absurd h (by simp)
  | cons a as ih =>
    intro fs n hs hnd hmem hcl
    have hnd2 := List.nodup_cons.mp hnd
    rcases List.mem_cons.mp hmem with h | h
    · subst h
      show processFilesFs cfg as (stepFs cfg n fs) (catDest cfg n) = fs (srcPath cfg n)
      rw [processFilesFs_frame cfg as _ _ ?_]
      · exact stepFs_cat cfg n fs hs hcl
      · intro m hm hw
        rcases hw with hh | ⟨_, hh⟩
        · exact rawDest_ne_catDest cfg m n hh.symm
        · exact hnd2.1 (catDest_inj cfg n m hh ▸ hm)
    · show processFilesFs cfg as (stepFs cfg a fs) (catDest cfg n) = fs (srcPath cfg n)
      rw [ih (stepFs cfg a fs) n hs hnd2.2 h hcl]
      exact stepFs_src cfg a fs n hs

/-- No operation of one file's copy phase is the metadata write. -/
theorem fileOps_no_write (cfg : BuildCfg) (n : String) :
    ∀ op ∈ fileOps cfg n, op.isWriteJson = false := by
  intro op hop
  by_cases h : classify_category n = ""
  · simp [fileOps, h] at hop
    rcases hop with h1 | h1 <;> subst h1 <;> rfl
  · simp [fileOps, h] at hop
    rcases hop with h1 | h1 | h1 | h1 <;> subst h1 <;> rfl

/-- If some file's mirror copy fails, the fallible copy loop ends in an
error. -/
theorem processFilesE_error (ora : CopyOracle) (cfg : BuildCfg) :
    ∀ (names : List String),
    (∃ n ∈ names, ora (srcPath cfg n) (rawDest cfg n) = false) →
    ∃ e, processFilesE ora cfg names = .error e := by
  intro names
  induction names with
  | nil => intro h; obtain ⟨n, hn, _⟩ := h; exact absurd hn (by simp)
  | cons a as ih =>
    intro h
    obtain ⟨n, hn, hfail⟩ := h
    cases hora : ora (srcPath cfg a) (rawDest cfg a) with
    | false =>
      exact ⟨(srcPath cfg a, rawDest cfg a), by simp [processFilesE, hora]⟩
    | true =>
      have hmem : n ∈ as := by
        rcases List.mem_cons.mp hn with hh | hh
        · subst hh; rw [hora] at hfail; exact absurd hfail (by simp)
        · exact hh
      have htail := ih ⟨n, hmem, hfail⟩
      obtain ⟨e, he⟩ := htail
      by_cases hcl : classify_category a ≠ ""
      · cases hcat : ora (srcPath cfg a) (catDest cfg a) with
        | false =>
          exact ⟨(srcPath cfg a, catDest cfg a),
            by simp [processFilesE, hora, hcl, hcat]⟩
        | true => exact ⟨e, by simp [processFilesE, hora, hcl, hcat, he]⟩
      · exact ⟨e, by simp [processFilesE, hora, hcl, he]⟩

/-- `scanLines` only looks at the budgeted prefix of the lines. -/
theorem scanLines_takeBudget (title : String) (maxBytes : Nat) :
    ∀ (ls : List String) (acc : Nat),
    scanLines title maxBytes ls acc =
      scanLines title maxBytes (takeBudget maxBytes ls acc) acc := by
  intro ls
  induction ls with
  | nil => intro acc; rfl
  | cons l ls ih =>
    intro acc
    unfold takeBudget
    by_cases hm : maxBytes ≤ acc + utf8Len l
    · rw [if_pos hm]
      cases hc : strContains l title <;> simp [scanLines, hc, hm]
    · rw [if_neg hm]
      cases hc : strContains l title
      · simp [scanLines, hc, hm]
        exact ih (acc + utf8Len l)
      · simp [scanLines, hc]

/-- The budgeted lines are a prefix of the file's lines. -/
theorem takeBudget_prefix (maxBytes : Nat) :
    ∀ (ls : List String) (acc : Nat), takeBudget maxBytes ls acc <+: ls := by
  intro ls
  induction ls with
  | nil => intro acc; exact List.nil_prefix
  | cons l ls ih =>
    intro acc
    unfold takeBudget
    by_cases hm : maxBytes ≤ acc + utf8Len l
    · rw [if_pos hm]
      exact ⟨ls, rfl⟩
    · rw [if_neg hm]
      obtain ⟨t, ht⟩ := ih (acc + utf8Len l)
      exact ⟨t, by rw [List.cons_append, ht]⟩

/-- The example configuration's source tree is separated from its target
tree (their first components differ). -/
theorem exCfg_sep : ∀ (x : String) (y : List String),
    exCfg.runDirPath ++ [x] ≠ runBase exCfg ++ y := by
  intro x y h
  have h1 : (exCfg.runDirPath ++ [x]).headD "" = "logs" := rfl
  have h2 : (runBase exCfg ++ y).headD "" = "ds" := rfl
  rw [h] at h1
  exact absurd (h1.symm.trans h2) (by decide)

/-! ## Claim theorems -/

/-- Claim C4 (confirmed): `classify_category` lowercases the name and
returns the category of the first matching prefix in declared table order
(first match wins); with no match it returns `""`, in which case the
builder performs only the mirror copy for that file and records the name in
the uncategorized list; classification is a pure function, so repeated
calls agree. -/
theorem claim_C4_classifier_semantics :
    (∀ (name : String) (i : Nat), i < CATEGORY_PREFIXES.length →
      strStarts (lowerStr name) (CATEGORY_PREFIXES.getD i ("", "")).1 = true →
      (∀ j, j < i →
        strStarts (lowerStr name) (CATEGORY_PREFIXES.getD j ("", "")).1 = false) →
      classify_category name = (CATEGORY_PREFIXES.getD i ("", "")).2)
  ∧ (∀ name : String,
      (∀ pc ∈ CATEGORY_PREFIXES, strStarts (lowerStr name) pc.1 = false) →
      classify_category name = "")
  ∧ (∀ (cfg : BuildCfg) (n : String), classify_category n = "" →
      fileOps cfg n =
        [.mkdirp (runBase cfg ++ ["RAW_ALL"]), .copyOp (srcPath cfg n) (rawDest cfg n)])
  ∧ (∀ (names : List String) (n : String), n ∈ names → classify_category n = "" →
      n ∈ (runCounts names).uncategorized_files)
  ∧ (∀ n1 n2 : String, n1 = n2 → classify_category n1 = classify_category n2) := by
  refine ⟨?_, ?_, ?_, ?_, ?_⟩
  · intro name i hi hp hprev
    unfold classify_category
    rw [find?_first_of_matches (fun pc => strStarts (lowerStr name) pc.1)
      ("", "") CATEGORY_PREFIXES i hi hp hprev]
  · intro name hall
    unfold classify_category
    rw [List.find?_eq_none.mpr (by intro pc hpc; simp [hall pc hpc])]
  · intro cfg n h
    simp [fileOps, h]
  · intro names n hmem hcls
    exact mem_uncat names initState n hmem hcls
  · intro n1 n2 h
    rw [h]

/-- Witness for C4: `getprop_all.txt` hits table entry 1 (`getprop_` →
`META`, with entry 0 not matching); `random.bin` matches nothing, is the
uncategorized element of its run and triggers only the mirror copy. -/
theorem claim_C4_witness :
    classify_category "getprop_all.txt" = (CATEGORY_PREFIXES.getD 1 ("", "")).2 ∧
    classify_category "random.bin" = "" ∧
    "random.bin" ∈ (runCounts ["logcat_main_a.txt", "random.bin"]).uncategorized_files := by
  refine ⟨?_, ?_, ?_⟩
  · refine claim_C4_classifier_semantics.1 "getprop_all.txt" 1 (by decide) (by decide) ?_
    intro j hj
    have hj0 : j = 0 := by omega
    subst hj0
    decide
  · exact claim_C4_classifier_semantics.2.1 "random.bin" (by decide)
  · exact claim_C4_classifier_semantics.2.2.2.1 ["logcat_main_a.txt", "random.bin"]
      "random.bin" (by decide) (by decide)

/-- Claim C5 (confirmed): `map_device_logical` tries, in order, the
explicit prefix override map, the S24 then S20 hardware heuristics, the
generic Samsung fallback, and finally returns the raw identity string;
each tier fires only when all earlier tiers fail, an override beats any
heuristic, and the last tier returns the input unchanged, so some name is
produced for every input. -/
theorem claim_C5_identity_tiers :
    (∀ (dm : List (String × String)) (bms : String) (pl : String × String),
      dm.find? (fun q => strStarts bms q.1) = some pl →
      map_device_logical dm bms = pl.2)
  ∧ (∀ (dm : List (String × String)) (bms : String),
      dm.find? (fun q => strStarts bms q.1) = none →
      s24Heur bms = true → map_device_logical dm bms = "Samsung_S24")
  ∧ (∀ (dm : List (String × String)) (bms : String),
      dm.find? (fun q => strStarts bms q.1) = none →
      s24Heur bms = false → s20Heur bms = true →
      map_device_logical dm bms = "Samsung_S20")
  ∧ (∀ (dm : List (String × String)) (bms : String),
      dm.find? (fun q => strStarts bms q.1) = none →
      s24Heur bms = false → s20Heur bms = false → brandOf bms = "samsung" →
      map_device_logical dm bms =
        (if 1 < (splitUnderscore bms).length then
          "Samsung_" ++ (splitUnderscore bms).getD 1 ""
        else "Samsung_Unknown"))
  ∧ (∀ (dm : List (String × String)) (bms : String),
      dm.find? (fun q => strStarts bms q.1) = none →
      s24Heur bms = false → s20Heur bms = false → brandOf bms ≠ "samsung" →
      map_device_logical dm bms = bms) := by
  refine ⟨?_, ?_, ?_, ?_, ?_⟩
  · intro dm bms pl hf
    unfold map_device_logical
    rw [hf]
  · intro dm bms hf h24
    unfold map_device_logical
    rw [hf]
    simp [h24]
  · intro dm bms hf h24 h20
    unfold map_device_logical
    rw [hf]
    simp [h24, h20]
  · intro dm bms hf h24 h20 hbr
    unfold map_device_logical
    rw [hf]
    simp [h24, h20, hbr]
  · intro dm bms hf h24 h20 hbr
    unfold map_device_logical
    rw [hf]
    simp [h24, h20, hbr]

/-- Witness for C5: `samsung_SM-S921B_R58N` matches both the override entry
and the S24 heuristic; the override's result is returned. -/
theorem claim_C5_witness :
    map_device_logical [("samsung_SM-S921B", "SpartacusPhone_S24")]
      "samsung_SM-S921B_R58N" = "SpartacusPhone_S24" ∧
    s24Heur "samsung_SM-S921B_R58N" = true := by
  refine ⟨?_, by decide⟩
  exact claim_C5_identity_tiers.1 [("samsung_SM-S921B", "SpartacusPhone_S24")]
    "samsung_SM-S921B_R58N" ("samsung_SM-S921B", "SpartacusPhone_S24") (by decide)

/-- Claim C7 (confirmed): in the non-dry-run build of a run, the metadata
write is the final operation of the trace, and every earlier operation
(directory creation and every file copy) is not a metadata write — so no
state has the metadata present while a copy of the run is pending. -/
theorem claim_C7_metadata_written_last (cfg : BuildCfg) (names : List String) :
    (buildTrace cfg names).getLast? = some (.writeJson (metaPath cfg)) ∧
    ∀ op ∈ (buildTrace cfg names).dropLast, op.isWriteJson = false := by
  have hsplit : buildTrace cfg names =
      (dirsTrace cfg ++ filesTrace cfg names ++ [.mkdirp (runBase cfg ++ ["META"])]) ++
        [.writeJson (metaPath cfg)] := by
    simp [buildTrace]
  constructor
  · rw [hsplit, List.getLast?_concat]
  · rw [hsplit, List.dropLast_concat]
    intro op hop
    rcases List.mem_append.mp hop with hop1 | hop2
    · rcases List.mem_append.mp hop1 with hd | hf
      · simp [dirsTrace] at hd
        obtain ⟨sub, _, hsub⟩ := hd
        rw [← hsub]
        rfl
      · simp only [filesTrace, List.mem_flatten] at hf
        obtain ⟨l, hl, hop⟩ := hf
        simp only [List.mem_map] at hl
        obtain ⟨n, _, hln⟩ := hl
        exact fileOps_no_write cfg n op (hln ▸ hop)
    · simp at hop2
      rw [hop2]
      rfl

/-- Claim C10 (confirmed): in every metadata document the builder writes,
`category_counts["RAW_ALL"]` equals `total_files`, and the four classified
category counters plus the length of `uncategorized_files` also sum to
`total_files`. -/
theorem claim_C10_counter_reconciliation (cfg : BuildCfg) (names : List String) :
    lookupCount (metaDocOf cfg names).category_counts "RAW_ALL" =
      (metaDocOf cfg names).total_files ∧
    lookupCount (metaDocOf cfg names).category_counts "META" +
      lookupCount (metaDocOf cfg names).category_counts "CORE_SYSTEM" +
      lookupCount (metaDocOf cfg names).category_counts "CONNECTIVITY" +
      lookupCount (metaDocOf cfg names).category_counts "APPS_PACKAGES" +
      (metaDocOf cfg names).uncategorized_files.length =
      (metaDocOf cfg names).total_files := by
  have hinv : countsInv (runCounts names) := by
    apply countsInv_foldl
    constructor <;> rfl
  obtain ⟨h1, h2⟩ := hinv
  have hlook : ∀ k ∈ RUN_SUBDIRS, lookupCount (RUN_SUBDIRS.map
      (fun q => (q, (runCounts names).category_counts q))) k =
      (runCounts names).category_counts k := by
    intro k hk
    fin_cases hk <;> simp [lookupCount, RUN_SUBDIRS]
  have hcounts : (metaDocOf cfg names).category_counts =
      RUN_SUBDIRS.map (fun q => (q, (runCounts names).category_counts q)) := rfl
  have htot : (metaDocOf cfg names).total_files = (runCounts names).total_files := rfl
  have hunc : (metaDocOf cfg names).uncategorized_files =
      (runCounts names).uncategorized_files := rfl
  rw [hcounts, htot, hunc]
  rw [hlook "RAW_ALL" (by decide), hlook "META" (by decide),
    hlook "CORE_SYSTEM" (by decide), hlook "CONNECTIVITY" (by decide),
    hlook "APPS_PACKAGES" (by decide)]
  exact ⟨h1, h2⟩

/-- Claim C3 (confirmed): after a non-dry-run build in which the source
tree and the target tree are separate and the source file names are
distinct, every regular file of the source run folder has a byte-identical
copy (the same stored value) under the same name in the `RAW_ALL` mirror,
and the category copy, when made, lives at a different path and likewise
holds the source value, so it never replaces the mirror copy. -/
theorem claim_C3_no_data_loss (cfg : BuildCfg) (names : List String) (fs : FS)
    (hs : ∀ (x : String) (y : List String),
      cfg.runDirPath ++ [x] ≠ runBase cfg ++ y)
    (hnd : names.Nodup) :
    ∀ n ∈ names,
      processRunFs cfg names fs (rawDest cfg n) = fs (srcPath cfg n) ∧
      (classify_category n ≠ "" →
        catDest cfg n ≠ rawDest cfg n ∧
        processRunFs cfg names fs (catDest cfg n) = fs (srcPath cfg n)) := by
  intro n hn
  constructor
  · unfold processRunFs
    rw [fsWrite_ne _ _ _ _ (rawDest_ne_metaPath cfg n)]
    exact processFilesFs_raw cfg names fs n hs hnd hn
  · intro hcl
    refine ⟨fun hh => rawDest_ne_catDest cfg n n hh.symm, ?_⟩
    unfold processRunFs
    rw [fsWrite_ne _ _ _ _ (catDest_ne_metaPath cfg n)]
    exact processFilesFs_cat cfg names fs n hs hnd hn hcl

/-- Witness for C3: in the concrete example run, the mirror copy and the
category copy of `dumpsys_battery_a.txt` both hold the source bytes. -/
theorem claim_C3_witness :
    processRunFs exCfg exNames exFs (rawDest exCfg "dumpsys_battery_a.txt") =
      exFs (srcPath exCfg "dumpsys_battery_a.txt") ∧
    processRunFs exCfg exNames exFs (catDest exCfg "dumpsys_battery_a.txt") =
      exFs (srcPath exCfg "dumpsys_battery_a.txt") := by
  have h := claim_C3_no_data_loss exCfg exNames exFs exCfg_sep (by decide)
    "dumpsys_battery_a.txt" (by decide)
  exact ⟨h.1, (h.2 (by decide)).2⟩

/-- Claim C9 (confirmed): running the builder a second time on the same
source run and target root writes the identical metadata document (hence
identical total and per-category counts and category assignments, which
are functions of the same file listing) and leaves the filesystem exactly
as after the first run; directory creation and copies overwrite safely (in
the model every write is a total overwriting update, as `exist_ok=True`
and `shutil.copy2` behave). -/
theorem claim_C9_idempotence (cfg : BuildCfg) (names : List String) (fs : FS)
    (hs : ∀ (x : String) (y : List String),
      cfg.runDirPath ++ [x] ≠ runBase cfg ++ y)
    (hnd : names.Nodup) :
    processRunFs cfg names (processRunFs cfg names fs) (metaPath cfg) =
      some (.jsonMeta (metaDocOf cfg names)) ∧
    ∀ p, processRunFs cfg names (processRunFs cfg names fs) p =
      processRunFs cfg names fs p := by
  have hsm : ∀ m : String, srcPath cfg m ≠ metaPath cfg := by
    intro m hh
    exact hs m ["META", "acquisition_meta.json"] hh
  have hsrc : ∀ m : String, processRunFs cfg names fs (srcPath cfg m) =
      fs (srcPath cfg m) := by
    intro m
    unfold processRunFs
    rw [fsWrite_ne _ _ _ _ (hsm m)]
    exact processFilesFs_src cfg names fs m hs
  constructor
  · unfold processRunFs
    rw [fsWrite_self]
  · intro p
    by_cases hp : p = metaPath cfg
    · subst hp
      unfold processRunFs
      rw [fsWrite_self, fsWrite_self]
    · have hred : ∀ g : FS, processRunFs cfg names g p = processFilesFs cfg names g p := by
        intro g
        unfold processRunFs
        exact fsWrite_ne _ _ _ _ hp
      rw [hred, hred]
      by_cases hex : ∀ n ∈ names, ¬ writesFor cfg n p
      · rw [processFilesFs_frame cfg names _ p hex,
            processFilesFs_frame cfg names fs p hex]
        rw [hred fs]
        exact processFilesFs_frame cfg names fs p hex
      · push_neg at hex
        obtain ⟨n, hn, hw⟩ := hex
        rcases hw with hraw | ⟨hcl, hcat⟩
        · subst hraw
          rw [processFilesFs_raw cfg names _ n hs hnd hn,
              processFilesFs_raw cfg names fs n hs hnd hn]
          exact hsrc n
        · subst hcat
          rw [processFilesFs_cat cfg names _ n hs hnd hn hcl,
              processFilesFs_cat cfg names fs n hs hnd hn hcl]
          exact hsrc n

/-- Witness for C9: on the concrete example run, rebuilding leaves the
`getprop_b.txt` mirror entry exactly as the first build did. -/
theorem claim_C9_witness :
    processRunFs exCfg exNames (processRunFs exCfg exNames exFs)
        (rawDest exCfg "getprop_b.txt") =
      processRunFs exCfg exNames exFs (rawDest exCfg "getprop_b.txt") :=
  (claim_C9_idempotence exCfg exNames exFs exCfg_sep (by decide)).2
    (rawDest exCfg "getprop_b.txt")

/-- Counterexample to C2 as stated: in the example run, the mirror copy of
the first file fails, and even though copying the second file would have
succeeded, the run aborts at the failing copy — the file is not skipped and
the remaining files are not processed (no metadata is produced). `copy_file`
has no handler, so the claimed log-skip-continue semantics does not hold. -/
theorem claim_C2_counterexample :
    processRunFolderE exOra exCfg exNames =
      .error (srcPath exCfg "dumpsys_battery_a.txt",
        rawDest exCfg "dumpsys_battery_a.txt") ∧
    exOra (srcPath exCfg "getprop_b.txt") (rawDest exCfg "getprop_b.txt") = true := by
  exact ⟨rfl, by decide⟩

/-- Claim C2 as amended: an I/O error on any file's mirror copy propagates
out of `process_run_folder` and aborts the whole run — no per-file recovery
exists, and the metadata document is produced only when every copy of the
run succeeded. -/
theorem claim_C2_copy_failure_aborts (ora : CopyOracle) (cfg : BuildCfg)
    (names : List String) :
    ((∃ n ∈ names, ora (srcPath cfg n) (rawDest cfg n) = false) →
      ∃ e, processRunFolderE ora cfg names = .error e) ∧
    (∀ m, processRunFolderE ora cfg names = .ok m → m = metaDocOf cfg names) := by
  constructor
  · intro h
    obtain ⟨e, he⟩ := processFilesE_error ora cfg names h
    exact ⟨e, by simp [processRunFolderE, he]⟩
  · intro m hm
    unfold processRunFolderE at hm
    cases he : processFilesE ora cfg names with
    | error e => rw [he] at hm; exact absurd hm (by simp)
    | ok u => rw [he] at hm; simpa using hm.symm

/-- Witness for amended C2: with the oracle that fails on the first
example file's mirror copy, the whole run ends in an error. -/
theorem claim_C2_witness :
    ∃ e, processRunFolderE exOra exCfg exNames = .error e :=
  (claim_C2_copy_failure_aborts exOra exCfg exNames).1
    ⟨"dumpsys_battery_a.txt", by decide, by decide⟩

/-- Counterexample to C1 as stated: for a record whose backing file does
not exist, the existence check is marked failed but checks 2–5 are never
attempted (they sit in the `else` branch of the existence test), contrary
to "every other check attempted". -/
theorem claim_C1_counterexample :
    checkRecord (fun _ => none) exDroot exLabels false exRec =
      ⟨some false, none, none, none, none, false⟩ := by
  rfl

/-- Claim C1 as amended: a record with an empty source reference fails with
no check attempted; a record whose backing file is missing is marked failed
on the existence check and checks 2–5 are skipped; when the backing file
exists, checks 2, 3 and 4 are always attempted — each evaluated regardless
of the others' outcomes — and check 5 exactly when the title toggle is on;
and the loop evaluates every record, so one failing record never stops
evaluation of the rest. -/
theorem claim_C1_validator_completeness :
    (∀ (vfs : VFS) (droot : Path) (labels : List (Int × String))
      (skipTitle : Bool) (rec : AndroidEventRecord),
      rec.source_file = none →
      checkRecord vfs droot labels skipTitle rec = ⟨none, none, none, none, none, false⟩)
  ∧ (∀ (vfs : VFS) (droot : Path) (labels : List (Int × String))
      (skipTitle : Bool) (rec : AndroidEventRecord) (p : Path),
      rec.source_file = some p → vfs p = none →
      checkRecord vfs droot labels skipTitle rec =
        ⟨some false, none, none, none, none, false⟩)
  ∧ (∀ (vfs : VFS) (droot : Path) (labels : List (Int × String))
      (skipTitle : Bool) (rec : AndroidEventRecord) (p : Path) (c : String),
      rec.source_file = some p → vfs p = some c →
      (checkRecord vfs droot labels skipTitle rec).existsCheck = some true ∧
      (checkRecord vfs droot labels skipTitle rec).underRoot.isSome = true ∧
      (checkRecord vfs droot labels skipTitle rec).identity.isSome = true ∧
      (checkRecord vfs droot labels skipTitle rec).temporal.isSome = true ∧
      ((checkRecord vfs droot labels skipTitle rec).contentCheck.isSome = true ↔
        skipTitle = false))
  ∧ (∀ (vfs : VFS) (droot : Path) (labels : List (Int × String))
      (skipTitle : Bool) (recs1 : List AndroidEventRecord)
      (rec : AndroidEventRecord) (recs2 : List AndroidEventRecord),
      validateRecords vfs droot labels skipTitle (recs1 ++ rec :: recs2) =
        validateRecords vfs droot labels skipTitle recs1 ++
          checkRecord vfs droot labels skipTitle rec ::
          validateRecords vfs droot labels skipTitle recs2) := by
  refine ⟨?_, ?_, ?_, ?_⟩
  · intro vfs droot labels skipTitle rec h
    simp only [checkRecord, h]
  · intro vfs droot labels skipTitle rec p hsf hvfs
    simp only [checkRecord, hsf, hvfs]
  · intro vfs droot labels skipTitle rec p c hsf hvfs
    simp only [checkRecord, hsf, hvfs]
    cases skipTitle <;> simp
  · intro vfs droot labels skipTitle recs1 rec recs2
    unfold validateRecords
    simp

/-- Witness for amended C1: for the concrete consistent record, all of
checks 1–4 are attempted (and check 5 is attempted since the toggle is
off). -/
theorem claim_C1_witness :
    (checkRecord exVfs exDroot exLabels false exRec).existsCheck = some true ∧
    (checkRecord exVfs exDroot exLabels false exRec).temporal.isSome = true ∧
    (checkRecord exVfs exDroot exLabels false exRec).contentCheck.isSome = true := by
  have h := claim_C1_validator_completeness.2.2.1 exVfs exDroot exLabels false
    exRec exPath "say hello world" rfl (by decide)
  exact ⟨h.1, h.2.2.2.1, h.2.2.2.2.mpr rfl⟩

/-- Counterexample to C8 as stated: the empty descriptive text occurs as a
substring of every file (as Python's `in` has it), yet the content check
fails for a record with an empty title, because the check additionally
requires a truthy `rec.title`. -/
theorem claim_C8_counterexample :
    strContains "say hello world" "" = true ∧
    (checkRecord exVfs exDroot exLabels false
      { exRec with title := "" }).contentCheck = some false := by
  exact ⟨by decide, by decide⟩

/-- Claim C8 as amended: with the toggle on and the backing file present,
the content check passes exactly when the record's title is nonempty and
`title_in_file` finds it — for files within the 5 000 000-byte budget, as a
substring of the whole content; for larger files, by a per-line scan that
examines only a bounded prefix of the lines; with the toggle off the check
constrains no record (it is never attempted). -/
theorem claim_C8_content_containment :
    (∀ (vfs : VFS) (droot : Path) (labels : List (Int × String))
      (rec : AndroidEventRecord) (p : Path) (content : String),
      rec.source_file = some p → vfs p = some content →
      utf8Len content ≤ TITLE_MAX_BYTES →
      ((checkRecord vfs droot labels false rec).contentCheck = some true ↔
        (rec.title ≠ "" ∧ strContains content rec.title = true)))
  ∧ (∀ (title : String) (maxBytes : Nat) (ls : List String),
      scanLines title maxBytes ls 0 =
        scanLines title maxBytes (takeBudget maxBytes ls 0) 0 ∧
      takeBudget maxBytes ls 0 <+: ls)
  ∧ (∀ (title content : String), TITLE_MAX_BYTES < utf8Len content →
      title_in_file title content TITLE_MAX_BYTES =
        scanLines title TITLE_MAX_BYTES
          (takeBudget TITLE_MAX_BYTES (linesKeep content) 0) 0)
  ∧ (∀ (vfs : VFS) (droot : Path) (labels : List (Int × String))
      (rec : AndroidEventRecord),
      (checkRecord vfs droot labels true rec).contentCheck = none) := by
  refine ⟨?_, ?_, ?_, ?_⟩
  · intro vfs droot labels rec p content hsf hvfs hsize
    have htf : title_in_file rec.title content TITLE_MAX_BYTES =
        strContains content rec.title := by
      unfold title_in_file
      rw [if_pos hsize]
    simp only [checkRecord, hsf, hvfs]
    rw [if_neg (by simp : ¬(false = true))]
    rw [htf]
    simp [Bool.and_eq_true, bne_iff_ne]
  · intro title maxBytes ls
    exact ⟨scanLines_takeBudget title maxBytes ls 0, takeBudget_prefix maxBytes ls 0⟩
  · intro title content hbig
    unfold title_in_file
    rw [if_neg (by omega)]
    exact scanLines_takeBudget title TITLE_MAX_BYTES (linesKeep content) 0
  · intro vfs droot labels rec
    cases hsf : rec.source_file with
    | none => simp [checkRecord, hsf]
    | some p =>
      cases hv : vfs p with
      | none => simp [checkRecord, hsf, hv]
      | some c => simp [checkRecord, hsf, hv]

/-- Witness for amended C8: the concrete record's title is found in its
small backing file, and with the toggle on the check is never attempted. -/
theorem claim_C8_witness :
    (checkRecord exVfs exDroot exLabels false exRec).contentCheck = some true ∧
    (checkRecord exVfs exDroot exLabels true exRec).contentCheck = none := by
  constructor
  · exact (claim_C8_content_containment.1 exVfs exDroot exLabels exRec exPath
      "say hello world" rfl (by decide) (by decide)).mpr ⟨by decide, by decide⟩
  · exact claim_C8_content_containment.2.2.2 exVfs exDroot exLabels exRec

/-- Claim C6 (confirmed): with exactly one candidate it is returned; with
several, only serial-matched candidates survive and a unique survivor is
returned; zero candidates, zero survivors or several survivors yield
`none` with the corresponding diagnostic; and a returned candidate is
always either the unique candidate or the unique serial-matched survivor —
never an arbitrary pick. -/
theorem claim_C6_disambiguation (store : List DeviceEntry) (serial : String) :
    (candidateNames store = [] →
      find_run_base_by_runid_and_serial store serial = (none, [.noTarget]))
  ∧ (∀ c, candidateNames store = [c] →
      find_run_base_by_runid_and_serial store serial = (some c, []))
  ∧ (2 ≤ (candidateNames store).length →
      (∀ m, matchedNames store serial = [m] →
        find_run_base_by_runid_and_serial store serial = (some m, []))
      ∧ (matchedNames store serial = [] →
        find_run_base_by_runid_and_serial store serial =
          (none, [.noneMatch (candidateNames store).length]))
      ∧ (2 ≤ (matchedNames store serial).length →
        find_run_base_by_runid_and_serial store serial =
          (none, [.multiMatch (matchedNames store serial).length])))
  ∧ (∀ c, (find_run_base_by_runid_and_serial store serial).1 = some c →
      candidateNames store = [c] ∨
        (2 ≤ (candidateNames store).length ∧ matchedNames store serial = [c])) := by
  refine ⟨?_, ?_, ?_, ?_⟩
  · intro h
    unfold find_run_base_by_runid_and_serial
    rw [h]
  · intro c h
    unfold find_run_base_by_runid_and_serial
    rw [h]
  · intro hlen
    cases hc : candidateNames store with
    | nil => rw [hc] at hlen; exact absurd hlen (by simp)
    | cons c1 rest =>
      cases rest with
      | nil => rw [hc] at hlen; exact absurd hlen (by simp)
      | cons c2 cs =>
        refine ⟨?_, ?_, ?_⟩
        · intro m hm
          unfold find_run_base_by_runid_and_serial
          rw [hc, hm]
        · intro hm
          unfold find_run_base_by_runid_and_serial
          rw [hc, hm]
        · intro hmlen
          cases hm : matchedNames store serial with
          | nil => rw [hm] at hmlen; exact absurd hmlen (by simp)
          | cons m1 mrest =>
            cases mrest with
            | nil => rw [hm] at hmlen; exact absurd hmlen (by simp)
            | cons m2 ms =>
              unfold find_run_base_by_runid_and_serial
              rw [hc, hm]
  · intro c hres
    cases hc : candidateNames store with
    | nil =>
      unfold find_run_base_by_runid_and_serial at hres
      rw [hc] at hres
      exact absurd hres (by simp)
    | cons c1 rest =>
      cases rest with
      | nil =>
        unfold find_run_base_by_runid_and_serial at hres
        rw [hc] at hres
        simp at hres
        exact Or.inl (by rw [hres])
      | cons c2 cs =>
        refine Or.inr ⟨by simp, ?_⟩
        cases hm : matchedNames store serial with
        | nil =>
          unfold find_run_base_by_runid_and_serial at hres
          rw [hc, hm] at hres
          exact absurd hres (by simp)
        | cons m1 mrest =>
          cases mrest with
          | nil =>
            unfold find_run_base_by_runid_and_serial at hres
            rw [hc, hm] at hres
            simp at hres
            rw [hres]
          | cons m2 ms =>
            unfold find_run_base_by_runid_and_serial at hres
            rw [hc, hm] at hres
            exact absurd hres (by simp)

/-- Witness for C6: of two candidates with distinct recorded serials,
`SER1` matches exactly `devA` and is returned; `NOPE` matches none and the
result is `none` with the zero-match diagnostic. -/
theorem claim_C6_witness :
    find_run_base_by_runid_and_serial exStore2 "SER1" = (some "devA", []) ∧
    find_run_base_by_runid_and_serial exStore2 "NOPE" = (none, [.noneMatch 2]) := by
  constructor
  · exact ((claim_C6_disambiguation exStore2 "SER1").2.2.1 (by decide)).1
      "devA" (by decide)
  · have h := ((claim_C6_disambiguation exStore2 "NOPE").2.2.1 (by decide)).2.1
      (by decide)
    exact h.trans (by decide)

end SafenetTools
